import Mathlib

/-!
A shallow embedding of the dynamic-marshaling core in `src/ffi_stubs.c`
(ocaml-ctypes FFI stubs): the layout builder (`struct bufferspec`), the call
descriptor (`struct callspec`), argument addition, struct completion, call
preparation, the per-call buffer population walk, the errno-checking call
wrapper, and the callback (trampoline) handler.

Machine integers (`size_t`, `int`) are modelled as `Nat`: all quantities
involved (byte counts, element counts, capacities) are small and non-negative
on every path the theorems touch, so no overflow wrap is observable.
External collaborators (libffi's `ffi_prep_cif` size computation, the
`ffi_type_pointer` constants) enter as explicit parameters.
-/

/-- A type descriptor as consumed from the TypeDescriptor provider: byte size
and byte alignment (the native-ABI handle plays no role in the layout
arithmetic and is omitted). -/
structure TypeInfo where
  size : Nat
  alignment : Nat
deriving DecidableEq, Repr

/-- The state field of `struct bufferspec`. -/
inductive BState where
  | BUILDING
  | BUILDING_UNPASSABLE
  | STRUCTSPEC
  | STRUCTSPEC_UNPASSABLE
  | CALLSPEC
deriving DecidableEq, Repr

/-- `struct bufferspec`.  The `args` array is modelled as a list of cells of
length `capacity`; a cell holds `some t` for a written `ffi_type *` entry and
`none` for a written `NULL` terminator.  Cells that were never written (fresh
`realloc` memory) hold whatever junk value the caller of the model supplies. -/
structure Bufferspec where
  bytes : Nat
  nelements : Nat
  capacity : Nat
  max_align : Nat
  state : BState
  args : List (Option TypeInfo)
deriving DecidableEq, Repr

/-- `bufferspec_prototype = { 0, 0, 0, 0, BUILDING, NULL }`. -/
def bufferspec_prototype : Bufferspec :=
  { bytes := 0, nelements := 0, capacity := 0, max_align := 0,
    state := BState.BUILDING, args := [] }

/-- `aligned_offset` from the source, verbatim:
`return offset + (offset % alignment);`. -/
def aligned_offset (offset alignment : Nat) : Nat :=
  offset + offset % alignment

/-- `increment_size` from `ctypes_add_argument`. -/
def increment_size : Nat := 8

/-- `ctypes_add_unpassable_argument_`.  The C function `assert`s that the
state is `BUILDING` or `BUILDING_UNPASSABLE`; a failed assertion is a fatal
stop, modelled as `none`.  It frees the `args` array (the stale `capacity`
field is left as-is, exactly as in the source), moves to
`BUILDING_UNPASSABLE`, and appends the element by size/alignment only. -/
def ctypes_add_unpassable_argument_ (b : Bufferspec) (size alignment : Nat) :
    Option (Bufferspec × Nat) :=
  if b.state = BState.BUILDING ∨ b.state = BState.BUILDING_UNPASSABLE then
    let offset := aligned_offset b.bytes alignment
    some ({ b with
              state := BState.BUILDING_UNPASSABLE,
              args := [],
              bytes := offset + size,
              nelements := b.nelements + 1,
              max_align := if alignment > b.max_align then alignment else b.max_align },
          offset)
  else none

/-- The `BUILDING` branch of `ctypes_add_argument`: compute the aligned
offset, bump `bytes`, grow the array by `increment_size` cells when
`nelements + 2 >= capacity` (new cells hold the indeterminate `junk`),
write the element at index `nelements` and a `NULL` terminator at
`nelements + 1`, bump `nelements`, and fold the alignment into `max_align`. -/
def add_argument_building (junk : Option TypeInfo) (b : Bufferspec)
    (argtype : TypeInfo) : Bufferspec × Nat :=
  let offset := aligned_offset b.bytes argtype.alignment
  let grown :=
    if b.nelements + 2 ≥ b.capacity then
      (b.args ++ List.replicate increment_size junk, b.capacity + increment_size)
    else
      (b.args, b.capacity)
  let args := ((grown.1.set b.nelements (some argtype)).set (b.nelements + 1) none)
  ({ bytes := offset + argtype.size,
     nelements := b.nelements + 1,
     capacity := grown.2,
     max_align := if argtype.alignment > b.max_align then argtype.alignment
                  else b.max_align,
     state := BState.BUILDING,
     args := args },
   offset)

/-- `ctypes_add_argument`: dispatch on the builder state.  `BUILDING` adds a
typed element; `BUILDING_UNPASSABLE` falls through to
`ctypes_add_unpassable_argument_` with the argument's size and alignment; any
other state hits `assert(0)`, modelled as `none`. -/
def ctypes_add_argument (junk : Option TypeInfo) (b : Bufferspec)
    (argtype : TypeInfo) : Option (Bufferspec × Nat) :=
  match b.state with
  | BState.BUILDING => some (add_argument_building junk b argtype)
  | BState.BUILDING_UNPASSABLE =>
      ctypes_add_unpassable_argument_ b argtype.size argtype.alignment
  | _ => none

/-- Fold `ctypes_add_argument` over a list of element types, collecting the
returned offsets in order. -/
def addArguments (junk : Option TypeInfo) :
    Bufferspec → List TypeInfo → Option (Bufferspec × List Nat)
  | b, [] => some (b, [])
  | b, t :: ts =>
    match ctypes_add_argument junk b t with
    | none => none
    | some (b1, off) =>
      match addArguments junk b1 ts with
      | none => none
      | some (b2, offs) => some (b2, off :: offs)

/-- `ctypes_complete_structspec`.  In `BUILDING` the struct's size and
alignment are computed by libffi's `ffi_prep_cif` on a dummy cif (external:
passed in as `libffi_size` / `libffi_align`) and the state moves to
`STRUCTSPEC`.  In `BUILDING_UNPASSABLE` the size is
`aligned_offset bytes max_align` and the alignment is `max_align`; the
source's assignment `bufferspec->state = STRUCTSPEC_UNPASSABLE` stands after
the `CAMLreturn` statement and is unreachable, so the state is NOT changed on
this branch.  Any other state hits `assert(0)` (`none`). -/
def ctypes_complete_structspec (libffi_size libffi_align : Nat)
    (b : Bufferspec) : Option (Bufferspec × TypeInfo) :=
  match b.state with
  | BState.BUILDING =>
      some ({ b with state := BState.STRUCTSPEC },
            { size := libffi_size, alignment := libffi_align })
  | BState.BUILDING_UNPASSABLE =>
      some (b,
            { size := aligned_offset b.bytes b.max_align,
              alignment := b.max_align })
  | _ => none

/-- Fold `ctypes_add_unpassable_argument_` over a list of (size, alignment)
pairs, collecting the returned offsets. -/
def addUnpassables :
    Bufferspec → List (Nat × Nat) → Option (Bufferspec × List Nat)
  | b, [] => some (b, [])
  | b, p :: ps =>
    match ctypes_add_unpassable_argument_ b p.1 p.2 with
    | none => none
    | some (b1, off) =>
      match addUnpassables b1 ps with
      | none => none
      | some (b2, offs) => some (b2, off :: offs)

/-- The slot-offset walk done by `populate_callbuffer`: starting from offset
0 it revisits the live `args` cells in order, aligning then advancing by the
size.  Dereferencing a `NULL` cell (the terminator, never live) would be
undefined behaviour, modelled as `none`.  The function returns the list of
slot offsets recorded in the pointer table. -/
def populate_callbuffer_offsets : List (Option TypeInfo) → Nat → Option (List Nat)
  | [], _ => some []
  | none :: _, _ => none
  | some t :: rest, offset =>
    let o := aligned_offset offset t.alignment
    match populate_callbuffer_offsets rest (o + t.size) with
    | none => none
    | some l => some (o :: l)

/-- The offset recurrence shared by `ctypes_add_argument` and
`populate_callbuffer`: align the running byte count to the element, record
the offset, advance by the element size. -/
def offsetsFrom (bytes : Nat) : List TypeInfo → List Nat
  | [] => []
  | t :: ts =>
    let o := aligned_offset bytes t.alignment
    o :: offsetsFrom (o + t.size) ts

/-- The storage invariant maintained by `ctypes_add_argument` in the
`BUILDING` state: the array has exactly `capacity` cells, and either at
least two cells of slack remain past the live elements with the cell at
index `nelements` holding the `NULL` terminator, or the builder is still in
its freshly-allocated form (no elements, no storage). -/
def SInv (b : Bufferspec) : Prop :=
  b.args.length = b.capacity ∧
    ((b.nelements + 2 ≤ b.capacity ∧ b.args[b.nelements]? = some none) ∨
      (b.nelements = 0 ∧ b.capacity = 0))

theorem take_set_of_le {α : Type} (l : List α) (i n : Nat) (a : α)
    (h : n ≤ i) : (l.set i a).take n = l.take n := by
  induction l generalizing i n with
  | nil => simp
  | cons x xs ih =>
    cases i with
    | zero =>
      have hn : n = 0 := Nat.le_zero.mp h
      simp [hn]
    | succ i =>
      cases n with
      | zero => simp
      | succ n => simpa using ih i n (Nat.le_of_succ_le_succ h)

theorem take_succ_set {α : Type} (l : List α) (n : Nat) (a : α)
    (h : n < l.length) : (l.set n a).take (n + 1) = l.take n ++ [a] := by
  rw [List.take_succ, take_set_of_le l n n a (Nat.le_refl n),
    List.getElem?_set_eq_of_lt a h]
  rfl

/-- Effect of one `BUILDING`-state `ctypes_add_argument` step: the returned
offset is `aligned_offset bytes alignment`, the byte count advances past the
element, the live prefix of the array gains exactly the new element, the
cell after it holds the terminator, and the storage invariant is preserved
across the (possible) geometric growth. -/
theorem add_argument_building_spec (junk : Option TypeInfo) (b : Bufferspec)
    (t : TypeInfo) (hs : SInv b) :
    ∃ b1, add_argument_building junk b t
        = (b1, aligned_offset b.bytes t.alignment) ∧
      b1.state = BState.BUILDING ∧
      b1.bytes = aligned_offset b.bytes t.alignment + t.size ∧
      b1.nelements = b.nelements + 1 ∧
      b1.args.take b1.nelements = b.args.take b.nelements ++ [some t] ∧
      SInv b1 := by
  obtain ⟨hlen, hdisj⟩ := hs
  have hn_le : b.nelements ≤ b.args.length := by
    rcases hdisj with ⟨h1, _⟩ | ⟨h1, _⟩ <;> omega
  by_cases hg : b.nelements + 2 ≥ b.capacity
  · -- growth: the array gains `increment_size` junk cells before the writes
    refine ⟨{ bytes := aligned_offset b.bytes t.alignment + t.size,
              nelements := b.nelements + 1,
              capacity := b.capacity + increment_size,
              max_align := if t.alignment > b.max_align then t.alignment
                           else b.max_align,
              state := BState.BUILDING,
              args := ((b.args ++ List.replicate increment_size junk).set
                        b.nelements (some t)).set (b.nelements + 1) none },
            ?_, rfl, rfl, rfl, ?_, ?_⟩
    · simp only [add_argument_building, if_pos hg]
    · have hbound0 : b.nelements
          < (b.args ++ List.replicate increment_size junk).length := by
        rw [List.length_append, List.length_replicate]
        rcases hdisj with ⟨h1, _⟩ | ⟨h1, h2⟩ <;>
          simp only [increment_size] <;> omega
      rw [take_set_of_le _ (b.nelements + 1) (b.nelements + 1) none
            (Nat.le_refl _),
          take_succ_set _ b.nelements (some t) hbound0,
          List.take_append_of_le_length hn_le]
    · have hbound : b.nelements + 1
          < (b.args ++ List.replicate increment_size junk).length := by
        rw [List.length_append, List.length_replicate]
        rcases hdisj with ⟨h1, _⟩ | ⟨h1, h2⟩ <;>
          simp only [increment_size] <;> omega
      refine ⟨?_, Or.inl ⟨?_, ?_⟩⟩
      · simp [List.length_set, hlen]
      · simp only [increment_size]
        omega
      · exact List.getElem?_set_eq_of_lt none (by simpa using hbound)
  · -- no growth: at least three cells of slack already remain
    have hcap : b.nelements + 3 ≤ b.capacity := by omega
    have hbound : b.nelements + 1 < b.args.length := by omega
    have hbound0 : b.nelements < b.args.length := by omega
    refine ⟨{ bytes := aligned_offset b.bytes t.alignment + t.size,
              nelements := b.nelements + 1,
              capacity := b.capacity,
              max_align := if t.alignment > b.max_align then t.alignment
                           else b.max_align,
              state := BState.BUILDING,
              args := (b.args.set b.nelements (some t)).set
                        (b.nelements + 1) none },
            ?_, rfl, rfl, rfl, ?_, ?_⟩
    · simp only [add_argument_building, if_neg hg]
    · rw [take_set_of_le _ (b.nelements + 1) (b.nelements + 1) none
            (Nat.le_refl _),
          take_succ_set _ b.nelements (some t) hbound0]
    · refine ⟨?_, Or.inl ⟨?_, ?_⟩⟩
      · simp [List.length_set, hlen]
      · show b.nelements + 1 + 2 ≤ b.capacity
        omega
      · exact List.getElem?_set_eq_of_lt none (by simpa using hbound)

/-- Folding `ctypes_add_argument` over any element list from a `BUILDING`
builder succeeds, returns exactly the offsets of the shared recurrence
`offsetsFrom`, extends the live array prefix by the elements in order, and
preserves the storage invariant. -/
theorem addArguments_building_spec (junk : Option TypeInfo) :
    ∀ (ts : List TypeInfo) (b : Bufferspec),
      b.state = BState.BUILDING → SInv b →
      ∃ b2, addArguments junk b ts = some (b2, offsetsFrom b.bytes ts) ∧
        b2.state = BState.BUILDING ∧ SInv b2 ∧
        b2.nelements = b.nelements + ts.length ∧
        b2.args.take b2.nelements = b.args.take b.nelements ++ ts.map some
  | [], b, hstate, hinv => ⟨b, rfl, hstate, hinv, rfl, by simp⟩
  | t :: ts, b, hstate, hinv => by
    obtain ⟨b1, hpair, hstate1, hbytes1, hnel1, htake1, hinv1⟩ :=
      add_argument_building_spec junk b t hinv
    obtain ⟨b2, heq, hstate2, hinv2, hnel2, htake2⟩ :=
      addArguments_building_spec junk ts b1 hstate1 hinv1
    refine ⟨b2, ?_, hstate2, hinv2,
      by simp only [hnel2, hnel1, List.length_cons]; omega, ?_⟩
    · have hdispatch : ctypes_add_argument junk b t
          = some (b1, aligned_offset b.bytes t.alignment) := by
        rw [ctypes_add_argument, hstate, hpair]
      rw [addArguments, hdispatch]
      simp only [heq, offsetsFrom, hbytes1]
    · rw [htake2, htake1]
      simp

/-- `populate_callbuffer_offsets` on a fully live cell list follows exactly
the `offsetsFrom` recurrence. -/
theorem populate_callbuffer_offsets_map_some :
    ∀ (ts : List TypeInfo) (o : Nat),
      populate_callbuffer_offsets (ts.map some) o = some (offsetsFrom o ts)
  | [], _ => rfl
  | t :: ts, o => by
    rw [List.map_cons, populate_callbuffer_offsets, offsetsFrom,
      populate_callbuffer_offsets_map_some ts]

/-- C6: for any layout built by a sequence of `ctypes_add_argument` calls on
a fresh builder, the per-call population walk of `populate_callbuffer`
(re-walking the element alignments from offset zero over the live `args`
prefix) computes exactly the offsets that `ctypes_add_argument` returned
during construction. -/
theorem populate_callbuffer_matches_add_argument (junk : Option TypeInfo)
    (ts : List TypeInfo) (b : Bufferspec) (offs : List Nat)
    (h : addArguments junk bufferspec_prototype ts = some (b, offs)) :
    populate_callbuffer_offsets (b.args.take b.nelements) 0 = some offs := by
  obtain ⟨b2, heq, _, _, _, htake⟩ :=
    addArguments_building_spec junk ts bufferspec_prototype rfl
      ⟨rfl, Or.inr ⟨rfl, rfl⟩⟩
  have h2 := Option.some.inj (heq.symm.trans h)
  cases h2
  simp only [bufferspec_prototype, List.take_nil, List.nil_append] at htake
  rw [htake]
  exact populate_callbuffer_offsets_map_some ts 0

/-- The builder produced by adding elements (4,4) then (2,2) to a fresh
builder with junk cell value `some (1,1)`. -/
def cbuf_example : Bufferspec :=
  { bytes := 6, nelements := 2, capacity := 8, max_align := 4,
    state := BState.BUILDING,
    args := [some ⟨4, 4⟩, some ⟨2, 2⟩, none, some ⟨1, 1⟩, some ⟨1, 1⟩,
             some ⟨1, 1⟩, some ⟨1, 1⟩, some ⟨1, 1⟩] }

/-- Witness for C6 at a concrete two-element layout. -/
theorem populate_callbuffer_matches_witness :
    populate_callbuffer_offsets
        (cbuf_example.args.take cbuf_example.nelements) 0 = some [0, 4] :=
  populate_callbuffer_matches_add_argument (some ⟨1, 1⟩) [⟨4, 4⟩, ⟨2, 2⟩]
    cbuf_example [0, 4] (by decide)

/-- C9: after any non-empty sequence of successful `ctypes_add_argument`
calls on a fresh builder, the array capacity exceeds the live element count
by at least one, and the cell just past the last live element holds the
`NULL` terminator, across any number of geometric growth steps. -/
theorem add_argument_capacity_and_sentinel (junk : Option TypeInfo)
    (ts : List TypeInfo) (b : Bufferspec) (offs : List Nat)
    (h : addArguments junk bufferspec_prototype ts = some (b, offs))
    (hne : ts ≠ []) :
    b.nelements + 1 ≤ b.capacity ∧ b.args[b.nelements]? = some none := by
  obtain ⟨b2, heq, _, hinv, hnel, _⟩ :=
    addArguments_building_spec junk ts bufferspec_prototype rfl
      ⟨rfl, Or.inr ⟨rfl, rfl⟩⟩
  have hsome := Option.some.inj (heq.symm.trans h)
  cases hsome
  rcases hinv.2 with ⟨h1, h2⟩ | ⟨h1, _⟩
  · exact ⟨by omega, h2⟩
  · exfalso
    simp only [bufferspec_prototype] at hnel
    have hlen0 : ts.length = 0 := by omega
    exact hne (List.length_eq_zero.mp hlen0)

/-- The builder produced by adding elements (2,2), (1,1), (4,4) to a fresh
builder with junk cell value `some (9,9)`. -/
def b9_example : Bufferspec :=
  { bytes := 10, nelements := 3, capacity := 8, max_align := 4,
    state := BState.BUILDING,
    args := [some ⟨2, 2⟩, some ⟨1, 1⟩, some ⟨4, 4⟩, none, some ⟨9, 9⟩,
             some ⟨9, 9⟩, some ⟨9, 9⟩, some ⟨9, 9⟩] }

/-- Witness for C9 at a concrete three-element layout. -/
theorem add_argument_capacity_and_sentinel_witness :
    b9_example.nelements + 1 ≤ b9_example.capacity ∧
      b9_example.args[b9_example.nelements]? = some none :=
  add_argument_capacity_and_sentinel (some ⟨9, 9⟩) [⟨2, 2⟩, ⟨1, 1⟩, ⟨4, 4⟩]
    b9_example [0, 2, 6] (by decide) (by decide)

/-- `struct callspec`: a bufferspec plus the return-value offset and the
compiled `ffi_cif` (the cif itself is opaque libffi state and carries no
layout arithmetic, so it is not modelled). -/
structure Callspec where
  bufferspec : Bufferspec
  roffset : Nat
deriving DecidableEq, Repr

/-- `callspec_prototype = { { 0, 0, 0, 0, BUILDING, NULL }, -1 }`: the
initial `roffset` is `(size_t)(-1)`, i.e. `2 ^ 64 - 1` on a 64-bit host. -/
def callspec_prototype : Callspec :=
  { bufferspec := bufferspec_prototype, roffset := 2 ^ 64 - 1 }

/-- The `ffi_status` codes distinguished by `check_ffi_status`. -/
inductive FfiStatus where
  | FFI_OK
  | FFI_BAD_TYPEDEF
  | FFI_BAD_ABI
deriving DecidableEq, Repr

/-- `check_ffi_status`: `FFI_OK` falls through, the two failure codes raise
`FFI_internal_error` with the corresponding message string. -/
def check_ffi_status : FfiStatus → Except String Unit
  | FfiStatus.FFI_OK => Except.ok ()
  | FfiStatus.FFI_BAD_TYPEDEF => Except.error "FFI_BAD_TYPEDEF"
  | FfiStatus.FFI_BAD_ABI => Except.error "FFI_BAD_ABI"

/-- `ctypes_prep_callspec`.  The mutations happen in place on the callspec
block before `ffi_prep_cif` runs: the aligned return slot is appended, the
byte count is padded to pointer alignment plus one pointer-sized word, and
only then is the cif prepared; `check_ffi_status` raises on a bad status,
leaving the already-mutated callspec behind, and only on success does the
state become `CALLSPEC`.  The libffi call itself is external: its status is
a parameter, as are the `ffi_type_pointer` size/alignment constants. -/
def ctypes_prep_callspec (ptr_size ptr_align : Nat) (status : FfiStatus)
    (c : Callspec) (rtype : TypeInfo) : Callspec × Except String Unit :=
  let roffset := aligned_offset c.bufferspec.bytes rtype.alignment
  let bytes1 := roffset + rtype.size
  let bytes2 := aligned_offset bytes1 ptr_align + ptr_size
  let c1 : Callspec :=
    { bufferspec := { c.bufferspec with bytes := bytes2 }, roffset := roffset }
  match check_ffi_status status with
  | Except.error e => (c1, Except.error e)
  | Except.ok _ =>
    ({ c1 with bufferspec := { c1.bufferspec with state := BState.CALLSPEC } },
     Except.ok ())

/-- C10: when `ffi_prep_cif` reports a failure status, `ctypes_prep_callspec`
propagates the error without ever reaching the `state = CALLSPEC` assignment,
but the callspec keeps the already-performed updates: `roffset` points at the
aligned return slot and `bytes` includes the return slot plus pointer
padding, so the descriptor is not restored to its pre-call state. -/
theorem prep_callspec_failure_not_restored
    (ptr_size ptr_align : Nat) (status : FfiStatus) (c : Callspec)
    (rtype : TypeInfo) (h : status ≠ FfiStatus.FFI_OK) :
    ∃ e, ctypes_prep_callspec ptr_size ptr_align status c rtype =
      ({ bufferspec := { c.bufferspec with
            bytes := aligned_offset
                (aligned_offset c.bufferspec.bytes rtype.alignment + rtype.size)
                ptr_align + ptr_size },
         roffset := aligned_offset c.bufferspec.bytes rtype.alignment },
       Except.error e) := by
  cases status with
  | FFI_OK => exact absurd rfl h
  | FFI_BAD_TYPEDEF => exact ⟨"FFI_BAD_TYPEDEF", rfl⟩
  | FFI_BAD_ABI => exact ⟨"FFI_BAD_ABI", rfl⟩

/-- Witness for C10: a failed preparation on the fresh callspec with an
int-like return type leaves `bytes = 16`, `roffset = 0`, state still
`BUILDING`, and the error propagated. -/
theorem prep_callspec_failure_witness :
    ∃ e, ctypes_prep_callspec 8 8 FfiStatus.FFI_BAD_ABI callspec_prototype
        ⟨4, 4⟩ =
      ({ bufferspec := { bytes := 16, nelements := 0, capacity := 0,
                         max_align := 0, state := BState.BUILDING,
                         args := [] },
         roffset := 0 },
       Except.error e) :=
  prep_callspec_failure_not_restored 8 8 FfiStatus.FFI_BAD_ABI
    callspec_prototype ⟨4, 4⟩ (by decide)

/-- The three thread-local-errno-affecting phases of one `ctypes_call`
invocation: the OCaml argument-writer callback, the native call through
`ffi_call`, and the OCaml return-reader callback.  Each is modelled by its
effect on `errno` (a state transformer); the reader also yields the
managed result. -/
structure CallParts (α : Type) where
  argwriter : Nat → Nat
  nativefn : Nat → Nat
  rvreader : Nat → Nat × α

/-- `ctypes_call`, viewed through its errno/result dataflow: the argument
writer runs first, then the native call, then the return reader, whose
value is returned.  (The scratch-buffer mechanics of the same function are
modelled by `populate_callbuffer_offsets`.) -/
def ctypes_call {α : Type} (p : CallParts α) (errno : Nat) : Nat × α :=
  let e1 := p.argwriter errno
  let e2 := p.nativefn e1
  p.rvreader e2

/-- `ctypes_call_errno`: sets `errno = 0`, runs the whole of `ctypes_call`
(argument writer, native call, return reader), and only then inspects
`errno`, raising `unix_error(errno, fnname)` if it is nonzero.  The incoming
errno value is discarded by the initial zeroing. -/
def ctypes_call_errno {α : Type} (fnname : String) (p : CallParts α)
    (_errno : Nat) : Nat × Except (Nat × String) α :=
  let r := ctypes_call p 0
  if r.1 ≠ 0 then (r.1, Except.error (r.1, fnname))
  else (r.1, Except.ok r.2)

/-- Modelled from the spec wording of `invokeWithOsErrorCheck` (claim C7):
the thread-local indicator is zeroed immediately before the native call and
inspected immediately after it; a nonzero code `E` fails with
`OsError(E, functionName)`, a zero indicator returns the result computed by
the return reader. -/
def call_errno_claimed {α : Type} (fnname : String) (p : CallParts α)
    (errno : Nat) : Nat × Except (Nat × String) α :=
  let _e1 := p.argwriter errno
  let e2 := p.nativefn 0
  if e2 ≠ 0 then (e2, Except.error (e2, fnname))
  else
    let r := p.rvreader e2
    (r.1, Except.ok r.2)

/-- C7 counterexample: with an argument writer that sets the indicator to 5,
a native call that leaves it untouched, and a reader returning 42, the code
fails with `OsError(5, "f")`, while the claimed behaviour (zeroing
immediately before the native call) would return 42 normally: the code does
NOT zero the indicator immediately before the native call. -/
theorem call_errno_not_zeroed_at_native_call :
    ctypes_call_errno "f"
        ⟨fun _ => 5, fun e => e, fun e => (e, (42 : Nat))⟩ 0
        = (5, Except.error (5, "f")) ∧
      call_errno_claimed "f"
        ⟨fun _ => 5, fun e => e, fun e => (e, (42 : Nat))⟩ 0
        = (0, Except.ok 42) :=
  ⟨rfl, rfl⟩

/-- C7 amended: `ctypes_call_errno` zeroes the indicator before the entire
invocation (ahead of the argument writer, so the result is independent of
the incoming errno value) and inspects it after the return reader has run;
if the indicator is then nonzero it fails with that code and the supplied
function name, and if it is zero it returns the reader's result. -/
theorem ctypes_call_errno_behaviour (α : Type) (fnname : String)
    (p : CallParts α) (e0 : Nat) :
    (∀ e1, ctypes_call_errno fnname p e0 = ctypes_call_errno fnname p e1) ∧
      ((ctypes_call p 0).1 ≠ 0 →
        ctypes_call_errno fnname p e0
          = ((ctypes_call p 0).1,
             Except.error ((ctypes_call p 0).1, fnname))) ∧
      ((ctypes_call p 0).1 = 0 →
        ctypes_call_errno fnname p e0
          = (0, Except.ok (ctypes_call p 0).2)) := by
  refine ⟨fun e1 => rfl, ?_, ?_⟩
  · intro h
    simp only [ctypes_call_errno, if_pos h]
  · intro h
    simp only [ctypes_call_errno, h]
    simp

/-- Witness for the amended C7 at a concrete call whose pipeline leaves the
indicator at 5. -/
theorem ctypes_call_errno_behaviour_witness :
    ctypes_call_errno "g"
        ⟨fun _ => 5, fun e => e, fun e => (e, (42 : Nat))⟩ 3
      = (5, Except.error (5, "g")) :=
  (ctypes_call_errno_behaviour Nat "g"
      ⟨fun _ => 5, fun e => e, fun e => (e, (42 : Nat))⟩ 3).2.1 (by decide)

/-- The managed binding chain bound to a trampoline: `enum boxedfn_tags`
with a `Done` node carrying the return handler (applied to the return-value
slot) and an `Fn` node carrying the per-argument step (applied to one
argument's raw memory, yielding the next node). -/
inductive Boxedfn (α ρ ω : Type) where
  | Done (handler : ρ → ω)
  | Fn (step : α → Boxedfn α ρ ω)

/-- `callback_handler`: walk the native arguments in declaration order; each
one requires the current node to be `Fn` (`assert (Tag_val(boxedfn) == Fn)`)
and applies the step to the argument to get the next node; after the
arguments, the node must be `Done` (`assert (Tag_val(boxedfn) == Done)`) and
its handler is applied to the return slot.  A failed assertion is a fatal
stop, modelled as `none`. -/
def callback_handler {α ρ ω : Type} :
    List α → Boxedfn α ρ ω → ρ → Option ω
  | [], Boxedfn.Done h, ret => some (h ret)
  | [], Boxedfn.Fn _, _ => none
  | a :: rest, Boxedfn.Fn f, ret => callback_handler rest (f a) ret
  | _ :: _, Boxedfn.Done _, _ => none

/-- Consuming the `Fn` nodes of a chain along an argument list, one node per
argument in order; `none` when a `Done` node is hit while arguments
remain. -/
def applySteps {α ρ ω : Type} :
    List α → Boxedfn α ρ ω → Option (Boxedfn α ρ ω)
  | [], c => some c
  | a :: rest, Boxedfn.Fn f => applySteps rest (f a)
  | _ :: _, Boxedfn.Done _ => none

/-- C8: `callback_handler` produces a result exactly when consuming one
`Fn` node per native argument, in declaration order, lands on a `Done`
node; the produced result is that node's handler applied to the return
slot.  Every other chain shape (a `Done` hit early, or an `Fn` left after
the last argument) is a fatal assertion failure. -/
theorem callback_handler_consumes_chain (α ρ ω : Type) :
    ∀ (args : List α) (chain : Boxedfn α ρ ω) (ret : ρ) (w : ω),
      callback_handler args chain ret = some w ↔
        ∃ h, applySteps args chain = some (Boxedfn.Done h) ∧ w = h ret := by
  intro args
  induction args with
  | nil =>
    intro chain ret w
    cases chain with
    | Done h =>
      constructor
      · intro hw
        exact ⟨h, rfl, (Option.some.inj hw).symm⟩
      · rintro ⟨h2, hh, rfl⟩
        have hinj := Option.some.inj hh
        injection hinj with h3
        rw [h3]
        rfl
    | Fn f => simp [callback_handler, applySteps]
  | cons a rest ih =>
    intro chain ret w
    cases chain with
    | Done h => simp [callback_handler, applySteps]
    | Fn f => simpa [callback_handler, applySteps] using ih (f a) ret w

/-- C1: `aligned_offset` does not satisfy the alignment contract.  At
offset 1 and (power-of-two) alignment 4 it returns `1 + 1 % 4 = 2`, which is
not a multiple of 4; the smallest multiple of 4 that is ≥ 1 is 4.  The
function contradicts its own comment ("compute the next offset that
satisfies alignment"). -/
theorem aligned_offset_violates_contract :
    aligned_offset 1 4 = 2 ∧ ¬ (4 ∣ aligned_offset 1 4) ∧
      (∀ m, 4 ∣ m → 1 ≤ m → 4 ≤ m) := by
  refine ⟨rfl, by decide, ?_⟩
  intro m hdvd hle
  rcases hdvd with ⟨k, rfl⟩
  rcases k with _ | k
  · omega
  · omega

/-- C2: adding an element of size 1 / alignment 1 and then an element of
size 4 / alignment 4 (both alignments powers of two) to a fresh builder
returns offsets `[0, 2]`: the second element's offset 2 is not a multiple of
its alignment 4, refuting the claim that every returned offset is a multiple
of the corresponding element's alignment. -/
theorem add_argument_offset_not_multiple :
    (addArguments (some ⟨0, 0⟩) bufferspec_prototype
        [⟨1, 1⟩, ⟨4, 4⟩]).map Prod.snd = some [0, 2] ∧
      ¬ (4 ∣ 2) := by
  constructor
  · rfl
  · decide

/-- A concrete builder in state `BUILDING_UNPASSABLE`: the result of adding
one opaque element of size 1 / alignment 1 to a fresh builder. -/
def unpassable_builder : Bufferspec :=
  { bytes := 1, nelements := 1, capacity := 0, max_align := 1,
    state := BState.BUILDING_UNPASSABLE, args := [] }

/-- C3 counterexample: `ctypes_add_argument` on a builder whose state is
`BUILDING_UNPASSABLE` (not `BUILDING`) succeeds and returns an offset,
refuting the claim that `addElement` fails whenever the state is not
`Building`. -/
theorem add_argument_succeeds_outside_building :
    unpassable_builder.state ≠ BState.BUILDING ∧
      ctypes_add_argument (some ⟨0, 0⟩) unpassable_builder ⟨4, 4⟩
        = some ({ bytes := 6, nelements := 2, capacity := 0, max_align := 4,
                  state := BState.BUILDING_UNPASSABLE, args := [] }, 2) := by
  constructor
  · decide
  · rfl

/-- C4: completing a builder in state `BUILDING_UNPASSABLE` leaves the state
unchanged (the transition to `STRUCTSPEC_UNPASSABLE` in the source is dead
code after `CAMLreturn`), so the builder does not reach
`STRUCTSPEC_UNPASSABLE`. -/
theorem complete_structspec_state_not_updated :
    (ctypes_complete_structspec 0 0 unpassable_builder).map (fun r => r.1.state)
        = some BState.BUILDING_UNPASSABLE ∧
      BState.BUILDING_UNPASSABLE ≠ BState.STRUCTSPEC_UNPASSABLE := by
  exact ⟨rfl, by decide⟩

/-- The builder obtained by adding opaque elements of size 1 / alignment 1
and then size 8 / alignment 8 to a fresh builder: `bytes = 10`,
`max_align = 8`. -/
def b5_example : Bufferspec :=
  { bytes := 10, nelements := 2, capacity := 0, max_align := 8,
    state := BState.BUILDING_UNPASSABLE, args := [] }

/-- C5: on the opaque builder with `totalBytes = 10` and `maxAlignment = 8`
(elements (1,1) then (8,8)), `ctypes_complete_structspec` records size
`aligned_offset 10 8 = 12`, which is not even a multiple of the alignment 8;
the smallest multiple of 8 that is ≥ 10 is 16, so the size is not
`alignUp(totalBytes, maxAlignment)` as the claim requires. -/
theorem complete_structspec_opaque_size_wrong :
    addUnpassables bufferspec_prototype [(1, 1), (8, 8)]
        = some (b5_example, [0, 2]) ∧
      (ctypes_complete_structspec 0 0 b5_example).map (fun r => r.2)
        = some { size := 12, alignment := 8 } ∧
      ¬ (8 ∣ 12) ∧ (∀ m, 8 ∣ m → 10 ≤ m → 16 ≤ m) := by
  refine ⟨rfl, rfl, by decide, ?_⟩
  intro m hdvd hle
  rcases hdvd with ⟨k, rfl⟩
  omega

/-- C3 amended: `ctypes_add_argument` succeeds exactly when the builder state
is `BUILDING` or `BUILDING_UNPASSABLE`; every other state is a fatal
`assert(0)` (`DesignInvariantViolation`). -/
theorem add_argument_succeeds_iff_building_states
    (junk : Option TypeInfo) (b : Bufferspec) (t : TypeInfo) :
    (ctypes_add_argument junk b t).isSome ↔
      (b.state = BState.BUILDING ∨ b.state = BState.BUILDING_UNPASSABLE) := by
  cases hs : b.state <;>
    simp [ctypes_add_argument, ctypes_add_unpassable_argument_, hs]
